import Mathlib

/-!
Shallow embedding of `lungmask/__main__.py` (the CLI / orchestration layer of
the lungmask package) and proofs about its observable behaviour.

The Python module contains: a `path` validator used by argparse for the
positional `input` argument, `main` (argument handling, inferer construction,
directory fan-out / pool dispatch) and `process_one_sample` (load image, run
inference, rebuild mask image with the input geometry, selectively copy DICOM
metadata, write).

External collaborators (`LMInferer`, `utils.load_input_image`,
`utils.get_DICOM_tags_to_keep`, SimpleITK objects, the filesystem) are treated
as parameters of the embedding: images are records of pixel data, geometry and
a metadata dictionary; the filesystem is a record of the three query functions
the module uses (`os.path.exists`, `os.path.isdir`, `os.listdir`); the
inference result is a parameter (an opaque array); the tag allowlist returned
by `utils.get_DICOM_tags_to_keep` (whose source is outside this module) is a
parameter `tags : List String`.  Numeric geometry values are only ever copied,
never computed with, so they are carried as `List Int`.
-/

/-! ### SimpleITK metadata dictionaries

A SimpleITK image carries a metadata dictionary from DICOM tag keys to string
values, accessed by `GetMetaDataKeys` / `GetMetaData` / `SetMetaData`.  We
represent it as an association list with the usual update semantics. -/

abbrev Metadata := List (String × String)

/-- Lookup of a key in a metadata dictionary (`GetMetaData` when present). -/
def mdGet : Metadata → String → Option String
  | [], _ => none
  | (k, v) :: rest, key => if k = key then some v else mdGet rest key

/-- `SetMetaData`: overwrite the value of `key` if present, append otherwise. -/
def mdSet : Metadata → String → String → Metadata
  | [], key, value => [(key, value)]
  | (k, v) :: rest, key, value =>
    if k = key then (key, value) :: rest else (k, v) :: mdSet rest key value

/-! ### SimpleITK images and the operations the module uses -/

/-- The slice of a SimpleITK image visible to this module: the voxel array,
the spatial geometry (origin, spacing, direction cosines) and the metadata
dictionary.  The CLI only moves geometry values around, so their numeric
carrier type is irrelevant; `List Int` stands in for the float tuples. -/
structure SITKImage where
  pixels : List Int
  origin : List Int
  spacing : List Int
  direction : List Int
  metadata : Metadata

/-- `sitk.GetImageFromArray(result)`: a fresh image holding the array, with
default geometry and an empty metadata dictionary. -/
def getImageFromArray (result : List Int) : SITKImage :=
  { pixels := result, origin := [], spacing := [], direction := [], metadata := [] }

/-- `dst.CopyInformation(src)`: copy origin, spacing and direction from `src`
onto `dst`; pixel data and the metadata dictionary are untouched. -/
def copyInformation (dst src : SITKImage) : SITKImage :=
  { dst with origin := src.origin, spacing := src.spacing, direction := src.direction }

/-- `img.GetMetaDataKeys()`. -/
def getMetaDataKeys (img : SITKImage) : List String :=
  img.metadata.map Prod.fst

/-- `img.GetMetaData(key)` (the module only calls it on present keys). -/
def getMetaData (img : SITKImage) (key : String) : String :=
  (mdGet img.metadata key).getD ""

/-- `img.SetMetaData(key, value)`. -/
def setMetaData (img : SITKImage) (key value : String) : SITKImage :=
  { img with metadata := mdSet img.metadata key value }

/-- `sitk.ImageFileWriter` state touched by the module: target file name and
the KeepOriginalImageUID flag (off on a fresh writer). -/
structure ImageFileWriter where
  fileName : String
  keepOriginalImageUID : Bool

/-- `sitk.ImageFileWriter()`. -/
def mkImageFileWriter : ImageFileWriter :=
  { fileName := "", keepOriginalImageUID := false }

/-! ### `process_one_sample` -/

/-- The metadata copy loop of `process_one_sample`:
`for key in input_image.GetMetaDataKeys(): if key in DICOM_tags_to_keep:
result_out.SetMetaData(key, input_image.GetMetaData(key))`, unrolled over the
key list. -/
def copyKeysLoop (input : SITKImage) (tags : List String) :
    SITKImage → List String → SITKImage
  | out, [] => out
  | out, key :: rest =>
    if key ∈ tags
    then copyKeysLoop input tags (setMetaData out key (getMetaData input key)) rest
    else copyKeysLoop input tags out rest

/-- The full copy loop, iterating over the input image's metadata keys. -/
def copyAllowedTags (out input : SITKImage) (tags : List String) : SITKImage :=
  copyKeysLoop input tags out (getMetaDataKeys input)

/-- `process_one_sample(input, output, args, inferer, keepmetadata)` with its
external collaborators as parameters: `input_image` is what
`utils.load_input_image` returned, `result` what `inferer.apply` returned,
`tags` what `utils.get_DICOM_tags_to_keep()` returns.  The value is the image
handed to `writer.Execute` together with the writer state at that moment. -/
def process_one_sample (input_image : SITKImage) (result : List Int)
    (keepmetadata : Bool) (tags : List String) (output : String) :
    SITKImage × ImageFileWriter :=
  let result_out := copyInformation (getImageFromArray result) input_image
  let writer := { mkImageFileWriter with fileName := output }
  if keepmetadata then
    let writer := { writer with keepOriginalImageUID := true }
    let result_out := copyAllowedTags result_out input_image tags
    let result_out := setMetaData result_out "0008|103e" "Created with lungmask"
    let result_out := setMetaData result_out "0028|1050" "1"
    let result_out := setMetaData result_out "0028|1051" "2"
    (result_out, writer)
  else
    (result_out, writer)

/-! ### Argument record and inferer construction -/

/-- The parsed argument namespace of `main` (fields and defaults as declared
by the `parser.add_argument` calls).  `argparse` with `type=int` places an
arbitrary `int` in `batchsize` and `pool`; `choices` restricts `modelname` to
the four model names. -/
structure Args where
  input : String
  output : String
  modelname : String := "R231"
  modelpath : Option String := none
  cpu : Bool := false
  nopostprocess : Bool := false
  batchsize : Int := 20
  pool : Int := 0
  noprogress : Bool := false
  removemetadata : Bool := false

/-- The model names admitted by the `choices` list of `--modelname`. -/
def modelnameChoices : List String :=
  ["R231", "LTRCLobes", "LTRCLobes_R231", "R231CovidWeb"]

/-- The configuration handed to the `LMInferer` constructor. -/
structure InfererConfig where
  modelname : String
  modelpath : Option String
  fillmodel : Option String
  force_cpu : Bool
  batch_size : Int
  volume_postprocessing : Bool
  tqdm_disable : Bool

/-- Lines 88–118 of `main`: compute the effective batch size
(`batchsize = args.batchsize; if args.cpu: batchsize = 1`) and construct the
inferer; for `LTRCLobes_R231` the assert that `modelpath` is `None` fires
first (an `AssertionError` with the given message, modelled as `.error`). -/
def makeInferer (args : Args) : Except String InfererConfig :=
  let batchsize := if args.cpu then 1 else args.batchsize
  if args.modelname = "LTRCLobes_R231" then
    match args.modelpath with
    | some _ => .error "Modelpath can not be specified for LTRCLobes_R231 mode"
    | none =>
      .ok { modelname := "LTRCLobes", modelpath := none, fillmodel := some "R231",
            force_cpu := args.cpu, batch_size := batchsize,
            volume_postprocessing := !args.nopostprocess,
            tqdm_disable := args.noprogress }
  else
    .ok { modelname := args.modelname, modelpath := args.modelpath, fillmodel := none,
          force_cpu := args.cpu, batch_size := batchsize,
          volume_postprocessing := !args.nopostprocess,
          tqdm_disable := args.noprogress }

/-! ### Filesystem model, `path` validator and `main` dispatch -/

/-- The filesystem queries the module performs. -/
structure FileSystem where
  pathExists : String → Bool
  isDir : String → Bool
  listDir : String → List String

/-- The `path` type-validator passed to argparse for `input`: return the
string if it exists, otherwise `sys.exit(f"File not found: {string}")`
(non-zero termination with that message, modelled as `.error`). -/
def path (pathExists : String → Bool) (string : String) : Except String String :=
  if pathExists string then .ok string else .error ("File not found: " ++ string)

/-- `os.path.join` as used here (joining a directory and a child name). -/
def joinPath (a b : String) : String := a ++ "/" ++ b

/-- Outcome of a successful run of `main` after argument parsing: the inferer
configuration, whether `os.makedirs(args.output, exist_ok=True)` ran, whether
the pool branch (`args.pool > 1`) was taken, and the `(filepath, output_path)`
pairs handed to `process_one_sample`, in dispatch order. -/
structure RunResult where
  inferer : InfererConfig
  createdOutputDir : Bool
  usesPool : Bool
  samples : List (String × String)

/-- `main` after `parse_args`, over a filesystem model: argparse first applies
the `path` validator to `input` (exiting on a missing path), the inferer is
constructed (the `LTRCLobes_R231` assert may fire), then the input is
dispatched.  Both the pool branch and the sequential branch enumerate
`os.listdir(args.input)`, skip entries that are directories, and pair each
remaining entry with the same base name under `args.output`; the two branches
dispatch the same pairs in the same order, so a single `samples` list records
them, with `usesPool` recording which branch ran. -/
def mainRun (fs : FileSystem) (args : Args) : Except String RunResult :=
  match path fs.pathExists args.input with
  | .error e => .error e
  | .ok input =>
    match makeInferer args with
    | .error e => .error e
    | .ok inferer =>
      if fs.isDir input then
        let files := (fs.listDir input).filter (fun name => !fs.isDir (joinPath input name))
        .ok { inferer := inferer, createdOutputDir := true,
              usesPool := args.pool > 1,
              samples := files.map (fun name =>
                (joinPath input name, joinPath args.output name)) }
      else
        .ok { inferer := inferer, createdOutputDir := false, usesPool := false,
              samples := [(input, args.output)] }

/-! ### Python `int` conversion for `--batchsize`

`argparse` applies `type=int` to the token of `--batchsize`; Python `int`
accepts any (optionally signed) decimal literal — in particular zero and
negative values — and `main` performs no further validation. -/

/-- Value of a decimal digit string, accumulator style; `none` on a
non-digit. -/
def decDigitsVal : List Char → Nat → Option Nat
  | [], acc => some acc
  | c :: rest, acc =>
    if c.isDigit then decDigitsVal rest (10 * acc + (c.toNat - 48)) else none

/-- Python `int(s)` restricted to plain optionally-signed decimal literals
(the forms relevant here); `none` models a `ValueError`. -/
def pyInt (s : String) : Option Int :=
  match s.toList with
  | [] => none
  | '-' :: rest =>
    if rest = [] then none else (decDigitsVal rest 0).map (fun n => -(n : Int))
  | '+' :: rest =>
    if rest = [] then none else (decDigitsVal rest 0).map (fun n => (n : Int))
  | cs => (decDigitsVal cs 0).map (fun n => (n : Int))

/-- Resolution of the `--batchsize` option: the declared default `20` when the
flag is absent, otherwise the `type=int` conversion of the token.  No
positivity (or any other) check is applied by the parser or by `main`. -/
def resolveBatchsize : Option String → Option Int
  | none => some 20
  | some tok => pyInt tok

/-! ### Concrete fixtures used to instantiate the theorems -/

/-- A sample loaded input image: one allowlisted-looking tag and one private
tag. -/
def imgEx : SITKImage :=
  { pixels := [7, 8], origin := [1, 2, 3], spacing := [1, 1, 2],
    direction := [1, 0, 0, 0, 1, 0, 0, 0, 1],
    metadata := [("0010|0010", "Doe^John"), ("9999|0000", "private")] }

/-- A filesystem on which every path exists and none is a directory. -/
def fsAll : FileSystem :=
  { pathExists := fun _ => true, isDir := fun _ => false, listDir := fun _ => [] }

/-- A filesystem with a single existing file `good.nii`. -/
def fsOneGood : FileSystem :=
  { pathExists := fun s => s = "good.nii", isDir := fun _ => false,
    listDir := fun _ => [] }

/-- A filesystem with a directory `ind` holding two files and one
subdirectory. -/
def fsDirEx : FileSystem :=
  { pathExists := fun _ => true,
    isDir := fun s => s = "ind" ∨ s = "ind/sub",
    listDir := fun _ => ["a.dcm", "sub", "b.dcm"] }

/-- Arguments for a run over the directory `ind`. -/
def argsDirEx : Args :=
  { input := "ind", output := "outd" }

/-- The run outcome on `fsDirEx` with the default pool degree. -/
def rDirEx : RunResult :=
  { inferer := { modelname := "R231", modelpath := none, fillmodel := none,
                 force_cpu := false, batch_size := 20,
                 volume_postprocessing := true, tqdm_disable := false },
    createdOutputDir := true, usesPool := false,
    samples := [("ind/a.dcm", "outd/a.dcm"), ("ind/b.dcm", "outd/b.dcm")] }

/-- The run outcome on `fsDirEx` with pool degree 4. -/
def rDirPool : RunResult :=
  { rDirEx with usesPool := true }

/-! ### Lemmas about the metadata dictionary -/

theorem mdGet_mdSet_self (md : Metadata) (k v : String) :
    mdGet (mdSet md k v) k = some v := by
  induction md with
  | nil => simp [mdSet, mdGet]
  | cons kv rest ih =>
    obtain ⟨k1, v1⟩ := kv
    by_cases h : k1 = k
    · simp [mdSet, h, mdGet]
    · simp [mdSet, h, mdGet, ih]

theorem mdGet_mdSet_ne (md : Metadata) (k v k' : String) (h : k' ≠ k) :
    mdGet (mdSet md k v) k' = mdGet md k' := by
  induction md with
  | nil => simp [mdSet, mdGet, Ne.symm h]
  | cons kv rest ih =>
    obtain ⟨k1, v1⟩ := kv
    by_cases h1 : k1 = k
    · subst h1
      simp [mdSet, mdGet, Ne.symm h]
    · by_cases h2 : k1 = k'
      · subst h2
        simp [mdSet, h1, mdGet]
      · simp [mdSet, h1, mdGet, h2, ih]

theorem mem_keys_of_mdGet_some (md : Metadata) (key v : String)
    (h : mdGet md key = some v) : key ∈ md.map Prod.fst := by
  induction md with
  | nil => simp [mdGet] at h
  | cons kv rest ih =>
    obtain ⟨k1, v1⟩ := kv
    by_cases hk : k1 = key
    · simp [hk]
    · simp [mdGet, hk] at h
      simp [ih h]

/-! ### Lemmas about the copy loop of `process_one_sample` -/

theorem copyKeysLoop_fields (input : SITKImage) (tags : List String) :
    ∀ (keys : List String) (out : SITKImage),
      (copyKeysLoop input tags out keys).pixels = out.pixels ∧
      (copyKeysLoop input tags out keys).origin = out.origin ∧
      (copyKeysLoop input tags out keys).spacing = out.spacing ∧
      (copyKeysLoop input tags out keys).direction = out.direction := by
  intro keys
  induction keys with
  | nil =>
    intro out
    simp [copyKeysLoop]
  | cons key rest ih =>
    intro out
    by_cases h : key ∈ tags
    · simpa [copyKeysLoop, h, setMetaData] using
        ih (setMetaData out key (getMetaData input key))
    · simpa [copyKeysLoop, h] using ih out

theorem mdGet_copyKeysLoop_not_mem_tags (input : SITKImage) (tags : List String)
    (key : String) (hk : key ∉ tags) :
    ∀ (keys : List String) (out : SITKImage),
      mdGet (copyKeysLoop input tags out keys).metadata key = mdGet out.metadata key := by
  intro keys
  induction keys with
  | nil =>
    intro out
    simp [copyKeysLoop]
  | cons k rest ih =>
    intro out
    by_cases h : k ∈ tags
    · have hne : key ≠ k := fun hkk => hk (hkk ▸ h)
      rw [copyKeysLoop, if_pos h, ih]
      simpa [setMetaData] using mdGet_mdSet_ne out.metadata k (getMetaData input k) key hne
    · rw [copyKeysLoop, if_neg h, ih]

theorem mdGet_copyKeysLoop_mem_tags (input : SITKImage) (tags : List String)
    (key : String) (hk : key ∈ tags) :
    ∀ (keys : List String) (out : SITKImage),
      mdGet (copyKeysLoop input tags out keys).metadata key =
        if key ∈ keys then some (getMetaData input key) else mdGet out.metadata key := by
  intro keys
  induction keys with
  | nil =>
    intro out
    simp [copyKeysLoop]
  | cons k rest ih =>
    intro out
    by_cases hkk : k = key
    · subst hkk
      rw [copyKeysLoop, if_pos hk, ih]
      by_cases hr : k ∈ rest
      · simp [hr]
      · simp [hr, setMetaData, mdGet_mdSet_self]
    · by_cases h : k ∈ tags
      · rw [copyKeysLoop, if_pos h, ih]
        by_cases hr : key ∈ rest
        · simp [hr, List.mem_cons]
        · have hne : key ≠ k := Ne.symm hkk
          simp [hr, List.mem_cons, hne, setMetaData,
            mdGet_mdSet_ne out.metadata k (getMetaData input k) key hne]
      · rw [copyKeysLoop, if_neg h, ih]
        simp [List.mem_cons, Ne.symm hkk]

/-! ### Small unfolding lemmas -/

theorem setMetaData_metadata (img : SITKImage) (k v : String) :
    (setMetaData img k v).metadata = mdSet img.metadata k v := rfl

theorem makeInferer_conflict (args : Args) (p : String)
    (hm : args.modelname = "LTRCLobes_R231") (hp : args.modelpath = some p) :
    makeInferer args = .error "Modelpath can not be specified for LTRCLobes_R231 mode" := by
  simp only [makeInferer]
  rw [if_pos hm, hp]

theorem makeInferer_composite (args : Args)
    (hm : args.modelname = "LTRCLobes_R231") (hp : args.modelpath = none) :
    makeInferer args =
      .ok { modelname := "LTRCLobes", modelpath := none, fillmodel := some "R231",
            force_cpu := args.cpu,
            batch_size := if args.cpu then 1 else args.batchsize,
            volume_postprocessing := !args.nopostprocess,
            tqdm_disable := args.noprogress } := by
  simp only [makeInferer]
  rw [if_pos hm, hp]

theorem makeInferer_other (args : Args) (h : args.modelname ≠ "LTRCLobes_R231") :
    makeInferer args =
      .ok { modelname := args.modelname, modelpath := args.modelpath,
            fillmodel := none, force_cpu := args.cpu,
            batch_size := if args.cpu then 1 else args.batchsize,
            volume_postprocessing := !args.nopostprocess,
            tqdm_disable := args.noprogress } := by
  simp only [makeInferer]
  rw [if_neg h]

theorem makeInferer_batch_size (args : Args) (cfg : InfererConfig)
    (h : makeInferer args = .ok cfg) :
    cfg.batch_size = if args.cpu then 1 else args.batchsize := by
  by_cases hm : args.modelname = "LTRCLobes_R231"
  · cases hp : args.modelpath with
    | some p =>
      rw [makeInferer_conflict args p hm hp] at h
      exact Except.noConfusion h
    | none =>
      rw [makeInferer_composite args hm hp] at h
      injection h with h
      subst h
      rfl
  · rw [makeInferer_other args hm] at h
    injection h with h
    subst h
    rfl

/-- Dissection of a successful `mainRun`: the input existed, the inferer was
built, and the result took either the directory branch or the file branch. -/
theorem mainRun_ok_shape (fs : FileSystem) (args : Args) (r : RunResult)
    (h : mainRun fs args = .ok r) :
    fs.pathExists args.input = true ∧
    makeInferer args = .ok r.inferer ∧
    ((fs.isDir args.input = true ∧ r.createdOutputDir = true ∧
        r.usesPool = decide (args.pool > 1) ∧
        r.samples = ((fs.listDir args.input).filter
          (fun n => !fs.isDir (joinPath args.input n))).map
          (fun n => (joinPath args.input n, joinPath args.output n))) ∨
      (fs.isDir args.input = false ∧ r.createdOutputDir = false ∧
        r.usesPool = false ∧ r.samples = [(args.input, args.output)])) := by
  cases hex : fs.pathExists args.input with
  | false =>
    exfalso
    have hpath : path fs.pathExists args.input =
        .error ("File not found: " ++ args.input) := by
      rw [path, if_neg (by simp [hex])]
    simp only [mainRun, hpath] at h
    exact Except.noConfusion h
  | true =>
    have hpath : path fs.pathExists args.input = .ok args.input := by
      rw [path, if_pos hex]
    simp only [mainRun, hpath] at h
    cases hinf : makeInferer args with
    | error e =>
      simp only [hinf] at h
      exact Except.noConfusion h
    | ok inferer =>
      simp only [hinf] at h
      split at h
      next hdir =>
        injection h with h
        subst h
        exact ⟨rfl, rfl, Or.inl ⟨hdir, rfl, rfl, rfl⟩⟩
      next hdir =>
        injection h with h
        subst h
        exact ⟨rfl, rfl, Or.inr ⟨by simpa using hdir, rfl, rfl, rfl⟩⟩

/-! ### Claim theorems -/

/-- C1: the batch size passed to the inference adapter is 1 whenever `--cpu`
is supplied, for every requested `--batchsize`, and equals the parsed
`--batchsize` value when `--cpu` is absent. -/
theorem cpu_forces_batch_size (args : Args) (cfg : InfererConfig)
    (h : makeInferer args = .ok cfg) :
    cfg.batch_size = if args.cpu then 1 else args.batchsize :=
  makeInferer_batch_size args cfg h

theorem cpu_forces_batch_size_witness :
    (InfererConfig.mk "R231" none none true 1 true false).batch_size =
      if (true : Bool) then 1 else (50 : Int) :=
  cpu_forces_batch_size (Args.mk "a" "b" "R231" none true false 50 0 false false) _ rfl

/-- C3: with metadata preservation enabled, the written image always carries
window center `0028|1050 = "1"`, window width `0028|1051 = "2"` and series
description `0008|103e = "Created with lungmask"`, whatever the input image's
metadata and whatever the allowlist contains. -/
theorem keepmetadata_sets_fixed_tags (input : SITKImage) (res : List Int)
    (tags : List String) (output : String) :
    mdGet (process_one_sample input res true tags output).1.metadata "0028|1050" = some "1" ∧
    mdGet (process_one_sample input res true tags output).1.metadata "0028|1051" = some "2" ∧
    mdGet (process_one_sample input res true tags output).1.metadata "0008|103e" =
      some "Created with lungmask" := by
  have e : (process_one_sample input res true tags output).1 =
      setMetaData (setMetaData (setMetaData
        (copyAllowedTags (copyInformation (getImageFromArray res) input) input tags)
        "0008|103e" "Created with lungmask") "0028|1050" "1") "0028|1051" "2" := rfl
  rw [e, setMetaData_metadata, setMetaData_metadata, setMetaData_metadata]
  refine ⟨?_, ?_, ?_⟩
  · rw [mdGet_mdSet_ne _ _ _ _ (by decide)]
    exact mdGet_mdSet_self _ _ _
  · exact mdGet_mdSet_self _ _ _
  · rw [mdGet_mdSet_ne _ _ _ _ (by decide), mdGet_mdSet_ne _ _ _ _ (by decide)]
    exact mdGet_mdSet_self _ _ _

/-- C6: the written image is built from the mask array and receives the input
image's origin, spacing and direction via `CopyInformation`; its pixel data is
the mask array, for every input image, so input intensities are never carried
over. -/
theorem process_output_geometry (input : SITKImage) (res : List Int)
    (keep : Bool) (tags : List String) (output : String) :
    (process_one_sample input res keep tags output).1.origin = input.origin ∧
    (process_one_sample input res keep tags output).1.spacing = input.spacing ∧
    (process_one_sample input res keep tags output).1.direction = input.direction ∧
    (process_one_sample input res keep tags output).1.pixels = res := by
  cases keep with
  | false => exact ⟨rfl, rfl, rfl, rfl⟩
  | true =>
    have h := copyKeysLoop_fields input tags (getMetaDataKeys input)
      (copyInformation (getImageFromArray res) input)
    have e : (process_one_sample input res true tags output).1 =
        setMetaData (setMetaData (setMetaData
          (copyAllowedTags (copyInformation (getImageFromArray res) input) input tags)
          "0008|103e" "Created with lungmask") "0028|1050" "1") "0028|1051" "2" := rfl
    rw [e]
    exact ⟨h.2.1, h.2.2.1, h.2.2.2, h.1⟩

/-- C10: with `--removemetadata` (metadata preservation disabled),
`process_one_sample` sets no metadata tag at all on the output image, leaves
the writer's KeepOriginalImageUID flag off, and only carries over the spatial
information onto the mask array before writing. -/
theorem removemetadata_frame (input : SITKImage) (res : List Int)
    (tags : List String) (output : String) :
    (process_one_sample input res false tags output).1.metadata = [] ∧
    (process_one_sample input res false tags output).2.keepOriginalImageUID = false ∧
    (process_one_sample input res false tags output).2.fileName = output ∧
    (process_one_sample input res false tags output).1.origin = input.origin ∧
    (process_one_sample input res false tags output).1.spacing = input.spacing ∧
    (process_one_sample input res false tags output).1.direction = input.direction ∧
    (process_one_sample input res false tags output).1.pixels = res :=
  ⟨rfl, rfl, rfl, rfl, rfl, rfl, rfl⟩

/-- C2: with metadata preservation enabled, the copy loop of
`process_one_sample` copies an input metadata key's value verbatim onto the
output image exactly when the key is in the `DICOM_tags_to_keep` allowlist
(here an arbitrary `tags`, since the allowlist's defining module is external);
keys outside the allowlist are never copied.  The first two conjuncts state
this for the image state produced by the copy loop; the third states that it
survives to the written image for every key other than the three tags the
code subsequently sets unconditionally (those are the subject of C3). -/
theorem allowlist_copy_iff (input : SITKImage) (res : List Int)
    (tags : List String) (key value output : String)
    (hpresent : mdGet input.metadata key = some value) :
    (mdGet (copyAllowedTags (copyInformation (getImageFromArray res) input) input tags).metadata
        key = some value ↔ key ∈ tags) ∧
    (key ∉ tags →
      mdGet (copyAllowedTags (copyInformation (getImageFromArray res) input) input tags).metadata
        key = none) ∧
    (key ∉ ["0008|103e", "0028|1050", "0028|1051"] →
      (mdGet (process_one_sample input res true tags output).1.metadata key = some value ↔
        key ∈ tags)) := by
  have hkeys : key ∈ getMetaDataKeys input :=
    mem_keys_of_mdGet_some input.metadata key value hpresent
  have hgv : getMetaData input key = value := by
    rw [getMetaData, hpresent]
    rfl
  have hnocopy : ∀ _ : key ∉ tags,
      mdGet (copyAllowedTags (copyInformation (getImageFromArray res) input) input tags).metadata
        key = none := by
    intro hk
    rw [copyAllowedTags, mdGet_copyKeysLoop_not_mem_tags input tags key hk]
    rfl
  have hiff :
      mdGet (copyAllowedTags (copyInformation (getImageFromArray res) input) input tags).metadata
        key = some value ↔ key ∈ tags := by
    constructor
    · intro hsome
      by_contra hk
      rw [hnocopy hk] at hsome
      exact Option.noConfusion hsome
    · intro hk
      rw [copyAllowedTags, mdGet_copyKeysLoop_mem_tags input tags key hk, if_pos hkeys, hgv]
  refine ⟨hiff, hnocopy, ?_⟩
  intro hspec
  have h1 : key ≠ "0008|103e" := by
    intro hh
    exact hspec (by rw [hh]; decide)
  have h2 : key ≠ "0028|1050" := by
    intro hh
    exact hspec (by rw [hh]; decide)
  have h3 : key ≠ "0028|1051" := by
    intro hh
    exact hspec (by rw [hh]; decide)
  have e : (process_one_sample input res true tags output).1 =
      setMetaData (setMetaData (setMetaData
        (copyAllowedTags (copyInformation (getImageFromArray res) input) input tags)
        "0008|103e" "Created with lungmask") "0028|1050" "1") "0028|1051" "2" := rfl
  rw [e, setMetaData_metadata, setMetaData_metadata, setMetaData_metadata,
    mdGet_mdSet_ne _ _ _ _ h3, mdGet_mdSet_ne _ _ _ _ h2, mdGet_mdSet_ne _ _ _ _ h1]
  exact hiff

theorem allowlist_copy_iff_witness :
    (mdGet (copyAllowedTags (copyInformation (getImageFromArray [7, 8]) imgEx) imgEx
        ["0010|0010"]).metadata "0010|0010" = some "Doe^John" ↔
      "0010|0010" ∈ ["0010|0010"]) ∧
    ("0010|0010" ∉ ["0010|0010"] →
      mdGet (copyAllowedTags (copyInformation (getImageFromArray [7, 8]) imgEx) imgEx
        ["0010|0010"]).metadata "0010|0010" = none) ∧
    ("0010|0010" ∉ ["0008|103e", "0028|1050", "0028|1051"] →
      (mdGet (process_one_sample imgEx [7, 8] true ["0010|0010"] "out.dcm").1.metadata
          "0010|0010" = some "Doe^John" ↔ "0010|0010" ∈ ["0010|0010"])) :=
  allowlist_copy_iff imgEx [7, 8] ["0010|0010"] "0010|0010" "Doe^John" "out.dcm" rfl

/-- C4: supplying `--modelpath` together with `--modelname LTRCLobes_R231`
makes the run fail with the assertion message before any sample is dispatched
(no `RunResult`, hence no output file or directory in the model), while every
other model name accepts a `--modelpath`. -/
theorem modelpath_conflict (fs : FileSystem) (args args2 : Args) (p : String)
    (hexists : fs.pathExists args.input = true)
    (hm : args.modelname = "LTRCLobes_R231")
    (hp : args.modelpath = some p)
    (h2 : args2.modelname ≠ "LTRCLobes_R231") :
    mainRun fs args = .error "Modelpath can not be specified for LTRCLobes_R231 mode" ∧
    ∃ cfg, makeInferer args2 = .ok cfg ∧ cfg.modelpath = args2.modelpath := by
  constructor
  · have hpath : path fs.pathExists args.input = .ok args.input := by
      rw [path, if_pos hexists]
    simp only [mainRun, hpath, makeInferer_conflict args p hm hp]
  · exact ⟨_, makeInferer_other args2 h2, rfl⟩

theorem modelpath_conflict_witness :
    mainRun fsAll (Args.mk "in.mhd" "out.mhd" "LTRCLobes_R231" (some "w.pth")
        false false 20 0 false false) =
      .error "Modelpath can not be specified for LTRCLobes_R231 mode" ∧
    ∃ cfg, makeInferer (Args.mk "in.mhd" "out.mhd" "R231" (some "w.pth")
        false false 20 0 false false) = .ok cfg ∧ cfg.modelpath = some "w.pth" :=
  modelpath_conflict fsAll _ _ "w.pth" rfl rfl rfl (by decide)

/-- C5: a non-existent input path makes the run terminate with
`File not found: <path>` during argument validation, before the inferer is
built or any dispatch happens; an existing path is returned unchanged by the
`path` validator. -/
theorem missing_input_exit (fs : FileSystem) (args : Args) (s : String)
    (hmiss : fs.pathExists args.input = false)
    (hex : fs.pathExists s = true) :
    mainRun fs args = .error ("File not found: " ++ args.input) ∧
    path fs.pathExists s = .ok s := by
  constructor
  · have hpath : path fs.pathExists args.input =
        .error ("File not found: " ++ args.input) := by
      rw [path, if_neg (by simp [hmiss])]
    simp only [mainRun, hpath]
  · rw [path, if_pos hex]

theorem missing_input_exit_witness :
    mainRun fsOneGood (Args.mk "bad.nii" "o.nii" "R231" none false false 20 0 false false) =
      .error ("File not found: " ++ "bad.nii") ∧
    path fsOneGood.pathExists "good.nii" = .ok "good.nii" :=
  missing_input_exit fsOneGood _ "good.nii" rfl rfl

/-- C7: for a directory input the output directory is ensured and exactly the
non-directory direct children are dispatched, each paired with the same base
name under the output directory, in listing order; for a non-directory input
exactly the one literal `(input, output)` pair is dispatched and no directory
is created. -/
theorem directory_fanout (fs : FileSystem) (args : Args) (r : RunResult)
    (h : mainRun fs args = .ok r) :
    (fs.isDir args.input = true →
      r.createdOutputDir = true ∧
      r.samples = ((fs.listDir args.input).filter
          (fun n => !fs.isDir (joinPath args.input n))).map
          (fun n => (joinPath args.input n, joinPath args.output n))) ∧
    (fs.isDir args.input = false →
      r.createdOutputDir = false ∧ r.samples = [(args.input, args.output)]) := by
  have hs := mainRun_ok_shape fs args r h
  refine ⟨fun hdir => ?_, fun hdirf => ?_⟩
  · rcases hs.2.2 with ⟨_, h1, _, h2⟩ | ⟨hfalse, _⟩
    · exact ⟨h1, h2⟩
    · simp [hdir] at hfalse
  · rcases hs.2.2 with ⟨htrue, _⟩ | ⟨_, h1, _, h2⟩
    · simp [hdirf] at htrue
    · exact ⟨h1, h2⟩

theorem directory_fanout_witness :
    (fsDirEx.isDir argsDirEx.input = true →
      rDirEx.createdOutputDir = true ∧
      rDirEx.samples = ((fsDirEx.listDir argsDirEx.input).filter
          (fun n => !fsDirEx.isDir (joinPath argsDirEx.input n))).map
          (fun n => (joinPath argsDirEx.input n, joinPath argsDirEx.output n))) ∧
    (fsDirEx.isDir argsDirEx.input = false →
      rDirEx.createdOutputDir = false ∧
      rDirEx.samples = [(argsDirEx.input, argsDirEx.output)]) :=
  directory_fanout fsDirEx argsDirEx rDirEx rfl

/-- C8: for a directory input, the pool branch is taken exactly when the pool
degree exceeds 1 (so every degree ≤ 1, including the default 0, processes
sequentially in directory-listing order), and the dispatched sample list — one
task per non-directory file — is the same whatever the pool degree. -/
theorem pool_dispatch (fs : FileSystem) (args : Args) (p q : Int) (r r' : RunResult)
    (hdir : fs.isDir args.input = true)
    (h : mainRun fs { args with pool := p } = .ok r)
    (h' : mainRun fs { args with pool := q } = .ok r') :
    (r.usesPool = false ↔ p ≤ 1) ∧
    (r.usesPool = true ↔ 1 < p) ∧
    r.samples = r'.samples ∧
    r.samples = ((fs.listDir args.input).filter
        (fun n => !fs.isDir (joinPath args.input n))).map
        (fun n => (joinPath args.input n, joinPath args.output n)) := by
  have hs := mainRun_ok_shape fs { args with pool := p } r h
  have hs' := mainRun_ok_shape fs { args with pool := q } r' h'
  rcases hs.2.2 with ⟨_, _, hpool, hsamp⟩ | ⟨hfalse, _⟩
  · rcases hs'.2.2 with ⟨_, _, _, hsamp'⟩ | ⟨hfalse', _⟩
    · refine ⟨?_, ?_, hsamp.trans hsamp'.symm, hsamp⟩
      · rw [hpool]
        simp [not_lt]
      · rw [hpool]
        simp
    · simp [hdir] at hfalse'
  · simp [hdir] at hfalse

theorem pool_dispatch_witness :
    (rDirEx.usesPool = false ↔ (0 : Int) ≤ 1) ∧
    (rDirEx.usesPool = true ↔ (1 : Int) < 0) ∧
    rDirEx.samples = rDirPool.samples ∧
    rDirEx.samples = ((fsDirEx.listDir argsDirEx.input).filter
        (fun n => !fsDirEx.isDir (joinPath argsDirEx.input n))).map
        (fun n => (joinPath argsDirEx.input n, joinPath argsDirEx.output n)) :=
  pool_dispatch fsDirEx argsDirEx 0 4 rDirEx rDirPool rfl rfl rfl

/-- C9 counterexample: the claim that the `--batchsize` option admits only
positive integers is false — `argparse`'s `type=int` conversion accepts
`"-3"`, and `main` hands the non-positive value straight to the inference
adapter. -/
theorem batchsize_nonpositive_accepted :
    resolveBatchsize (some "-3") = some (-3) ∧
    makeInferer (Args.mk "a" "b" "R231" none false false (-3) 0 false false) =
      .ok (InfererConfig.mk "R231" none none false (-3) true false) ∧
    ¬ 0 < (-3 : Int) :=
  ⟨by decide, rfl, by decide⟩

/-- C9 (amended): the `--batchsize` option admits any integer token (with
default 20 when absent); whatever integer it carries — positive or not — is
passed through unvalidated as the inference batch size when `--cpu` is
absent. -/
theorem batchsize_admits_any_integer (tok : String) (n : Int) (args : Args)
    (cfg : InfererConfig)
    (htok : pyInt tok = some n)
    (hcpu : args.cpu = false)
    (hok : makeInferer args = .ok cfg) :
    resolveBatchsize (some tok) = some n ∧
    resolveBatchsize none = some 20 ∧
    cfg.batch_size = args.batchsize := by
  refine ⟨htok, rfl, ?_⟩
  rw [makeInferer_batch_size args cfg hok, hcpu]
  simp

theorem batchsize_admits_any_integer_witness :
    resolveBatchsize (some "-3") = some (-3 : Int) ∧
    resolveBatchsize none = some 20 ∧
    (InfererConfig.mk "R231" none none false (-3) true false).batch_size =
      (Args.mk "a" "b" "R231" none false false (-3) 0 false false).batchsize :=
  batchsize_admits_any_integer "-3" (-3) _ _ (by decide) rfl rfl
